import Mathlib

/-!
Shallow embedding of the Roastery JDWP client's typed value codec, packet
framing, and event parsing (from `src/include/jdwp_type.hpp`,
`src/include/jdwp_packet.hpp`, `jdwp_type.cpp`, `jdwp_packet.cpp`,
`jdwp_con.cpp`), together with theorems settling the specification claims.

Byte strings are modelled as `List Nat` (each entry a byte value); machine
integers are `Nat` with explicit `% 2^w` where the C++ truncates.  C++
member functions that populate `this` are modelled as state-passing
functions taking the old object and returning the updated one.
-/

deriving instance DecidableEq for Except

namespace Roastery

/-- Big-endian byte string of the low `w` bytes of `v` (the value a
`htonl`/`htonll`-style serializer writes for a `w`-byte field). -/
def beBytes : Nat → Nat → List Nat
  | 0, _ => []
  | w + 1, v => beBytes w (v / 256) ++ [v % 256]

/-- Value of a big-endian byte string. -/
def beVal (l : List Nat) : Nat := l.foldl (fun a b => a * 256 + b) 0

/-- The first `w` bytes of `data`, zero-padded when `data` is shorter;
models a C++ read of `w` chars where reading at the terminator yields 0. -/
def padTake (w : Nat) (data : List Nat) : List Nat :=
  data.take w ++ List.replicate (w - data.length) 0

/-- Big-endian value of the first `w` bytes of `data`. -/
def readBE (w : Nat) (data : List Nat) : Nat := beVal (padTake w data)

/-- The JVM-reported ID widths cached by a connection
(`IJdwpCon::GetObjIdSize` and siblings). -/
structure Sizes where
  objId : Nat
  methodId : Nat
  fieldId : Nat
  frameId : Nat
  deriving DecidableEq, Repr

/-- Failure conditions raised by the modelled code: each constructor
corresponds to one `throw` site in the source. -/
inductive JdwpErr where
  /-- `ProduceHeader`: `throw JdwpException("Body too long")`. -/
  | bodyTooLong
  /-- `JdwpVariableSizeFieldBase::SerializeImpl`:
  `throw JdwpException("ID size too large")`. -/
  | idSizeTooLarge
  /-- `JdwpValue::FromEncodedAsUntagged` "Unknown Tag" and
  `GetSizeByTag` "Unknown tag". -/
  | unknownTag
  /-- `IJdwpEvent::FromComposite`:
  "Cannot parse non-event packet as a composite event". -/
  | nonEventPacket
  /-- `IJdwpEvent::FromComposite`: "Illegal eventKind in composite event". -/
  | illegalEventKind
  /-- `IJdwpEvent::FromEncoded`: "Wrong IJdwpEvent instance for event". -/
  | wrongEventKind
  deriving DecidableEq, Repr

/-- The variable-width identifier structs of `jdwp_type.hpp`
(`JdwpObjId`, `JdwpThreadId`, …, `JdwpFrameId`); they differ only in which
entry of the sizes table their `GetSize` override returns. -/
inductive IdKind where
  | objId | threadId | threadGroupId | stringId | classLoaderId
  | classObjectId | arrayId | referenceTypeId | classId | interfaceId
  | arrayTypeId | methodId | fieldId | frameId
  deriving DecidableEq, Repr

/-- Width used by each identifier struct's `GetSize` override.  All object
reference kinds call `GetObjIdSize`; `JdwpMethodId`, `JdwpFieldId` and
`JdwpFrameId` call `GetMethodIdSize`, `GetFieldIdSize`, `GetFrameIdSize`. -/
def idWidth (S : Sizes) : IdKind → Nat
  | .methodId => S.methodId
  | .fieldId => S.fieldId
  | .frameId => S.frameId
  | _ => S.objId

/-- The fixed-width primitive field structs (`JdwpByte` … `JdwpShort`). -/
inductive PrimKind where
  | byte | bool | char | float | double | int | long | short
  deriving DecidableEq, Repr

/-- `value_size` of each fixed-width struct (`sizeof(UnderlyingType)`). -/
def primWidth : PrimKind → Nat
  | .byte => 1
  | .bool => 1
  | .char => 2
  | .float => 4
  | .double => 8
  | .int => 4
  | .long => 8
  | .short => 2

/-- JDWP tag byte of each primitive kind (`JdwpTag` values). -/
def primTag : PrimKind → Nat
  | .byte => 66    -- 'B'
  | .bool => 90    -- 'Z'
  | .char => 67    -- 'C'
  | .float => 70   -- 'F'
  | .double => 68  -- 'D'
  | .int => 73     -- 'I'
  | .long => 74    -- 'J'
  | .short => 83   -- 'S'

/-- `TagIsObjType` from `jdwp_type.cpp`: Array `[`, Object `L`, String `s`,
Thread `t`, ThreadGroup `g`, ClassLoader `l`, ClassObject `c`. -/
def tagIsObjType (t : Nat) : Bool :=
  t == 91 || t == 76 || t == 115 || t == 116 || t == 103 || t == 108 ||
    t == 99

/-- `GetSizeByTag` from `jdwp_type.cpp`: object tags consult the sizes
table, primitives use their fixed widths, `V` is 0 bytes, anything else
throws "Unknown tag". -/
def getSizeByTag (S : Sizes) (t : Nat) : Except JdwpErr Nat :=
  if tagIsObjType t then .ok S.objId
  else if t == 66 then .ok 1       -- 'B'
  else if t == 67 then .ok 2       -- 'C'
  else if t == 70 then .ok 4       -- 'F'
  else if t == 68 then .ok 8       -- 'D'
  else if t == 73 then .ok 4       -- 'I'
  else if t == 74 then .ok 8       -- 'J'
  else if t == 83 then .ok 2       -- 'S'
  else if t == 86 then .ok 0       -- 'V'
  else if t == 90 then .ok 1       -- 'Z'
  else .error .unknownTag

/-- The `JdwpValue::JdwpVal` variant: `VoidValue`, one of the fixed-width
primitive structs, or a `JdwpObjId` (each object-reference tag stores its
payload as a `JdwpObjId`). -/
inductive JdwpVal where
  | voidV : JdwpVal
  | primV : PrimKind → Nat → JdwpVal
  | objIdV : Nat → JdwpVal
  deriving DecidableEq, Repr

/-- The closed set of JDWP field values held by the `IJdwpField`
implementations: fixed-width primitives, variable-width identifiers,
`JdwpTaggedObjectId`, `JdwpLocation`, `JdwpString`, `JdwpValue` (tagged)
and `JdwpArrayRegion`.  Identifier payloads are the 64-bit logical values;
tags are stored as byte values. -/
inductive JdwpField where
  | prim : PrimKind → Nat → JdwpField
  | varId : IdKind → Nat → JdwpField
  | taggedObjId : (tag : Nat) → (objId : Nat) → JdwpField
  | location : (typeTag : Nat) → (classId : Nat) → (methodId : Nat) →
      (index : Nat) → JdwpField
  | str : List Nat → JdwpField
  | value : (tag : Nat) → JdwpVal → JdwpField
  | region : (tag : Nat) → List (Nat × JdwpVal) → JdwpField
  deriving DecidableEq, Repr

/-- `JdwpVariableSizeFieldBase::SerializeImpl`: fails when the reported
width exceeds `sizeof(uint64_t)`; otherwise writes the low `w` bytes of
the 64-bit value in big-endian order (silently truncating wider values). -/
def serializeVar (w : Nat) (v : Nat) : Except JdwpErr (List Nat) :=
  if w > 8 then .error .idSizeTooLarge else .ok (beBytes w v)

/-- `JdwpVariableSizeFieldBase::FromEncodedImpl`: reads `w` wire bytes
into the low byte positions of the 64-bit value, leaving the remaining
high bytes of the member unchanged; reports `w` bytes consumed. -/
def fromVar (w : Nat) (old : Nat) (data : List Nat) : Nat × Nat :=
  (old / 256 ^ w * 256 ^ w + readBE w data, w)

/-- `JdwpString::SerializeImpl`: `htonl` of the length (truncated to 32
bits) followed by the raw bytes. -/
def serializeString (d : List Nat) : List Nat := beBytes 4 d.length ++ d

/-- `JdwpLocation::SerializeImpl`: type-tag byte, class ID, method ID,
8-byte big-endian index. -/
def serializeLocation (S : Sizes) (tt c m idx : Nat) :
    Except JdwpErr (List Nat) :=
  match serializeVar S.objId c with
  | .error e => .error e
  | .ok cb =>
    match serializeVar S.methodId m with
    | .error e => .error e
    | .ok mb => .ok (tt % 256 :: (cb ++ (mb ++ beBytes 8 idx)))

/-- `JdwpValue::SerializeAsUntagged`: serialization of the active variant
member (void values contribute no bytes). -/
def serializeUntagged (S : Sizes) : JdwpVal → Except JdwpErr (List Nat)
  | .voidV => .ok []
  | .primV k v => .ok (beBytes (primWidth k) v)
  | .objIdV v => serializeVar S.objId v

/-- One iteration of `JdwpArrayRegion::SerializeImpl`'s loop: object-typed
regions write each element tagged (`JdwpValue::Serialize`), other regions
write each element untagged (`SerializeAsUntagged`). -/
def serializeRegionElems (S : Sizes) (obj : Bool) :
    List (Nat × JdwpVal) → Except JdwpErr (List Nat)
  | [] => .ok []
  | (t, v) :: rest =>
    match serializeUntagged S v with
    | .error e => .error e
    | .ok ub =>
      match serializeRegionElems S obj rest with
      | .error e => .error e
      | .ok tl => .ok ((if obj then t % 256 :: ub else ub) ++ tl)

/-- `Serialize` of every `IJdwpField` implementation, dispatched on the
field kind exactly as the C++ virtual `SerializeImpl` overrides do. -/
def serializeField (S : Sizes) : JdwpField → Except JdwpErr (List Nat)
  | .prim k v => .ok (beBytes (primWidth k) v)
  | .varId k v => serializeVar (idWidth S k) v
  | .taggedObjId t o =>
    match serializeVar S.objId o with
    | .error e => .error e
    | .ok b => .ok (t % 256 :: b)
  | .location tt c m idx => serializeLocation S tt c m idx
  | .str d => .ok (serializeString d)
  | .value t v =>
    match serializeUntagged S v with
    | .error e => .error e
    | .ok b => .ok (t % 256 :: b)
  | .region t elems =>
    match serializeRegionElems S (tagIsObjType t) elems with
    | .error e => .error e
    | .ok eb => .ok (t % 256 :: (beBytes 4 elems.length ++ eb))

/-- `JdwpValue::FromEncodedAsUntagged`: selects the payload variant from
the tag, reads it from the front of `data`, and reports the bytes read
(`con.GetObjIdSize()` for object tags, `value_size` otherwise; 0 for
void).  Unrecognised tags throw "Unknown Tag".  The freshly constructed
payload member is taken to be zeroed. -/
def fromUntagged (S : Sizes) (t : Nat) (data : List Nat) :
    Except JdwpErr (JdwpVal × Nat) :=
  if t == 86 then .ok (.voidV, 0)
  else if tagIsObjType t then .ok (.objIdV (readBE S.objId data), S.objId)
  else if t == 90 then .ok (.primV .bool (readBE 1 data), 1)
  else if t == 66 then .ok (.primV .byte (readBE 1 data), 1)
  else if t == 67 then .ok (.primV .char (readBE 2 data), 2)
  else if t == 70 then .ok (.primV .float (readBE 4 data), 4)
  else if t == 68 then .ok (.primV .double (readBE 8 data), 8)
  else if t == 73 then .ok (.primV .int (readBE 4 data), 4)
  else if t == 74 then .ok (.primV .long (readBE 8 data), 8)
  else if t == 83 then .ok (.primV .short (readBE 2 data), 2)
  else .error .unknownTag

/-- `JdwpValue::FromEncodedImpl`: tag byte, then the untagged payload;
reports `1 + untagged_size` bytes consumed. -/
def taggedValueFrom (S : Sizes) (data : List Nat) :
    Except JdwpErr ((Nat × JdwpVal) × Nat) :=
  match fromUntagged S (data.getD 0 0) (data.drop 1) with
  | .error e => .error e
  | .ok (v, n) => .ok ((data.getD 0 0, v), 1 + n)

/-- The object-typed branch of `JdwpArrayRegion::FromEncodedImpl`'s loop:
`count` tagged values decoded at stride `obj_id_size + 1`.  The source
passes the window `encoded.substr(i, i + value_size)` (length argument
computed as an end index), but since that window always contains the
`1 + obj_id_size` bytes the element decoder actually reads, decoding from
the remaining slice is equivalent. -/
def decodeObjElems (S : Sizes) : Nat → List Nat →
    Except JdwpErr (List (Nat × JdwpVal))
  | 0, _ => .ok []
  | c + 1, data =>
    match taggedValueFrom S data with
    | .error e => .error e
    | .ok (tv, _) =>
      match decodeObjElems S c (data.drop (S.objId + 1)) with
      | .error e => .error e
      | .ok rest => .ok (tv :: rest)

/-- The non-object branch of `JdwpArrayRegion::FromEncodedImpl`'s loop:
`count` untagged values of the region's tag, each read from a
`value_size`-byte window, each decoded element carrying the region tag. -/
def decodeUntaggedElems (S : Sizes) (t vs : Nat) : Nat → List Nat →
    Except JdwpErr (List (Nat × JdwpVal))
  | 0, _ => .ok []
  | c + 1, data =>
    match fromUntagged S t (data.take vs) with
    | .error e => .error e
    | .ok (v, _) =>
      match decodeUntaggedElems S t vs c (data.drop vs) with
      | .error e => .error e
      | .ok rest => .ok ((t, v) :: rest)

/-- The bytes an implicit `const char* → const std::string&` conversion
delivers: the characters up to (not including) the first zero byte.
`JdwpTaggedObjectId::FromEncodedImpl` triggers this conversion by passing
`&data_arr[1]` where `JdwpObjId::FromEncoded` expects a `const string&`,
so the object-ID payload it hands on is truncated at the first zero
byte. -/
def cString (data : List Nat) : List Nat :=
  data.takeWhile (fun b => b != 0)

/-- `FromEncoded` of every `IJdwpField` implementation.  The C++ decoders
populate `this`, so the function takes the old object; fixed-width and
composite fields are fully overwritten, while variable-width identifiers
merge the wire bytes into the low positions of the existing 64-bit value
(`JdwpVariableSizeFieldBase::FromEncodedImpl` writes only
`bytes_to_read` bytes).  For `JdwpTaggedObjectId`, the payload reaches
the object-ID decoder through the NUL-truncating `cString` conversion,
after which the fixed count of `GetSize(con)` bytes is still read —
position `size()` of the temporary yields the terminator 0 and positions
beyond are an out-of-bounds read, both modelled as 0 by `padTake` inside
`readBE` (the reported size, `1 + obj_id_size`, is unaffected).  For
`JdwpArrayRegion`, a `value_size` of zero (void tag) makes the loop
condition `i < 5 + 0` fail immediately, so no elements are decoded
although the reported size still counts `value_count * value_size = 0`
bytes. -/
def fromEncodedField (S : Sizes) : JdwpField → List Nat →
    Except JdwpErr (JdwpField × Nat)
  | .prim k _, data =>
    .ok (.prim k (readBE (primWidth k) data), primWidth k)
  | .varId k old, data =>
    let w := idWidth S k
    .ok (.varId k (fromVar w old data).1, w)
  | .taggedObjId _ old, data =>
    let w := S.objId
    .ok (.taggedObjId (data.getD 0 0)
      (fromVar w old (cString (data.drop 1))).1, 1 + w)
  | .location _ oldC oldM _, data =>
    let wo := S.objId
    let wm := S.methodId
    .ok (.location (data.getD 0 0)
      (fromVar wo oldC (data.drop 1)).1
      (fromVar wm oldM (data.drop (1 + wo))).1
      (readBE 8 (data.drop (1 + wo + wm))), 1 + wo + wm + 8)
  | .str _, data =>
    let len := readBE 4 data
    .ok (.str ((data.drop 4).take len), 4 + len)
  | .value _ _, data =>
    match taggedValueFrom S data with
    | .error e => .error e
    | .ok ((t, v), n) => .ok (.value t v, n)
  | .region _ _, data =>
    let t := data.getD 0 0
    let count := readBE 4 (data.drop 1)
    match getSizeByTag S t with
    | .error e => .error e
    | .ok vs =>
      if tagIsObjType t then
        match decodeObjElems S count (data.drop 5) with
        | .error e => .error e
        | .ok elems => .ok (.region t elems, 1 + 4 + count * (vs + 1))
      else
        match decodeUntaggedElems S t vs (if vs == 0 then 0 else count)
            (data.drop 5) with
        | .error e => .error e
        | .ok elems => .ok (.region t elems, 1 + 4 + count * vs)

/-- Default-constructed decode target of the same kind as `f`: the C++
deserializers are invoked on a freshly constructed field object, whose
numeric members we take as zeroed and containers as empty. -/
def freshLike : JdwpField → JdwpField
  | .prim k _ => .prim k 0
  | .varId k _ => .varId k 0
  | .taggedObjId _ _ => .taggedObjId 0 0
  | .location _ _ _ _ => .location 0 0 0 0
  | .str _ => .str []
  | .value _ _ => .value 0 .voidV
  | .region _ _ => .region 0 []

/-- Claim C1's side condition on the sizes table: all four widths in 1..8. -/
def wfSizesB (S : Sizes) : Bool :=
  decide (1 ≤ S.objId) && decide (S.objId ≤ 8) &&
  decide (1 ≤ S.methodId) && decide (S.methodId ≤ 8) &&
  decide (1 ≤ S.fieldId) && decide (S.fieldId ≤ 8) &&
  decide (1 ≤ S.frameId) && decide (S.frameId ≤ 8)

/-- Tags accepted by `GetSizeByTag` (all others throw "Unknown tag"). -/
def tagKnownB (t : Nat) : Bool :=
  tagIsObjType t || t == 66 || t == 67 || t == 70 || t == 68 || t == 73 ||
    t == 74 || t == 83 || t == 86 || t == 90

/-- A `JdwpValue` payload is representable for tag `t` when the active
variant is the one `FromEncodedAsUntagged` selects for `t` and its value
fits the width written on the wire. -/
def wfValB (S : Sizes) (t : Nat) : JdwpVal → Bool
  | .voidV => t == 86
  | .primV k x => t == primTag k && decide (x < 256 ^ primWidth k)
  | .objIdV x => tagIsObjType t && decide (x < 256 ^ S.objId)

/-- An element of an object-typed array region is representable when its
own tag is an object tag below 256 and its payload is an object ID that
fits the sizes-table width. -/
def wfObjElemB (S : Sizes) (p : Nat × JdwpVal) : Bool :=
  decide (p.1 < 256) && tagIsObjType p.1 &&
    (match p.2 with
     | .objIdV x => decide (x < 256 ^ S.objId)
     | _ => false)

/-- Holds when every byte occurring after a zero byte of the list is
itself zero, i.e. the list's zero bytes form a suffix — exactly the byte
strings that survive the NUL-truncating `cString` conversion followed by
zero-padding back to the original length. -/
def zerosAreSuffix : List Nat → Bool
  | [] => true
  | b :: rest =>
    if b == 0 then rest.all (fun x => x == 0) else zerosAreSuffix rest

/-- Representable values of each field kind (claim C1's "value `v`
representable by that kind"): tag bytes below 256, payloads that fit the
widths actually written, string and region lengths that fit the 32-bit
count, region tags recognised by `GetSizeByTag`, region elements matching
the region tag — and, forced by the decoder's behaviour, no elements in a
void-tagged region, and tagged object IDs whose big-endian payload never
has a zero byte followed by a nonzero byte (the payload bytes from its
first zero byte on are lost to the `cString` conversion and read back as
zeros). -/
def wfFieldB (S : Sizes) : JdwpField → Bool
  | .prim k v => decide (v < 256 ^ primWidth k)
  | .varId k v => decide (v < 256 ^ idWidth S k)
  | .taggedObjId t o => decide (t < 256) && decide (o < 256 ^ S.objId) &&
      zerosAreSuffix (beBytes S.objId o)
  | .location tt c m idx =>
    decide (tt < 256) && decide (c < 256 ^ S.objId) &&
    decide (m < 256 ^ S.methodId) && decide (idx < 256 ^ 8)
  | .str d => decide (d.length < 2 ^ 32)
  | .value t v => decide (t < 256) && wfValB S t v
  | .region t elems =>
    decide (t < 256) && decide (elems.length < 2 ^ 32) && tagKnownB t &&
      (if tagIsObjType t then elems.all (wfObjElemB S)
       else (if t == 86 then elems.isEmpty else true) &&
         elems.all (fun p => p.1 == t && wfValB S t p.2))

/-- `IJdwpCommandPacket::ProduceHeader` (`jdwp_packet.cpp`): rejects a
body longer than `UINT32_MAX - 11`, then writes the 4-byte big-endian
total length (`static_cast<uint32_t>(body_len) + kHeaderLen`), the 4-byte
big-endian id, the flags byte `JdwpFlags::kNone = 0`, the command-set
byte and the command byte. -/
def produceHeader (commandSet command bodyLen id : Nat) :
    Except JdwpErr (List Nat) :=
  if bodyLen > 4294967295 - 11 then .error .bodyTooLong
  else .ok (beBytes 4 (bodyLen % 4294967296 + 11) ++
    (beBytes 4 id ++ [0, commandSet % 256, command % 256]))

/-- A slot of a command schema's `Fields` tuple: either a single
`IJdwpField` or a `std::vector` of tuples of further slots (the shapes
`CommandPacketBase::RecursiveSerialize` handles). -/
inductive Slot where
  | fld : JdwpField → Slot
  | vec : List (List Slot) → Slot

mutual

/-- `CommandPacketBase::RecursiveSerialize` on a single slot: plain
fields serialize themselves; a vector serializes a `JdwpInt` of its
element count followed by the serialized element bundles. -/
def serializeSlot (S : Sizes) : Slot → Except JdwpErr (List Nat)
  | .fld f => serializeField S f
  | .vec bundles =>
    match serializeBundles S bundles with
    | .error e => .error e
    | .ok eb => .ok (beBytes 4 bundles.length ++ eb)

/-- Serialization of the element bundles of a vector slot. -/
def serializeBundles (S : Sizes) : List (List Slot) →
    Except JdwpErr (List Nat)
  | [] => .ok []
  | b :: rest =>
    match serializeSlots S b with
    | .error e => .error e
    | .ok hb =>
      match serializeBundles S rest with
      | .error e => .error e
      | .ok tb => .ok (hb ++ tb)

/-- `TupleForEach` over a field tuple: concatenation of the slots'
serializations. -/
def serializeSlots (S : Sizes) : List Slot → Except JdwpErr (List Nat)
  | [] => .ok []
  | s :: rest =>
    match serializeSlot S s with
    | .error e => .error e
    | .ok hb =>
      match serializeSlots S rest with
      | .error e => .error e
      | .ok tb => .ok (hb ++ tb)

end

/-- `CommandPacketBase::SerializeImpl`: serialize the field tuple into
the body, then prepend `ProduceHeader(command_set, command, body.length,
id)`. -/
def commandSerialize (S : Sizes) (commandSet command : Nat)
    (slots : List Slot) (id : Nat) : Except JdwpErr (List Nat) :=
  match serializeSlots S slots with
  | .error e => .error e
  | .ok body =>
    match produceHeader commandSet command body.length id with
    | .error e => .error e
    | .ok hdr => .ok (hdr ++ body)

/-- One `(JdwpFieldId, JdwpValue)` pair of the SetValues overrides:
field ID then the value's untagged bytes.  (The `JdwpValue`'s tag member
is not written, so it is omitted from the model.) -/
def serializePairsFV (S : Sizes) :
    List (Nat × JdwpVal) → Except JdwpErr (List Nat)
  | [] => .ok []
  | (fid, v) :: rest =>
    match serializeVar S.fieldId fid with
    | .error e => .error e
    | .ok fb =>
      match serializeUntagged S v with
      | .error e => .error e
      | .ok vb =>
        match serializePairsFV S rest with
        | .error e => .error e
        | .ok tb => .ok (fb ++ (vb ++ tb))

/-- `class_type::SetValuesCommand::SerializeImpl` (`jdwp_packet.cpp`):
the class ID followed by each `(field ID, untagged value)` pair — and
nothing else: no call to `ProduceHeader` and no `JdwpInt` element count
for the vector slot. -/
def classTypeSetValuesSerialize (S : Sizes) (classId : Nat)
    (values : List (Nat × JdwpVal)) : Except JdwpErr (List Nat) :=
  match serializeVar S.objId classId with
  | .error e => .error e
  | .ok cb =>
    match serializePairsFV S values with
    | .error e => .error e
    | .ok pb => .ok (cb ++ pb)

/-- `object_reference::SetValuesCommand::SerializeImpl`: the object ID
followed by each `(field ID, untagged value)` pair; no header, no count. -/
def objectReferenceSetValuesSerialize (S : Sizes) (objId : Nat)
    (values : List (Nat × JdwpVal)) : Except JdwpErr (List Nat) :=
  match serializeVar S.objId objId with
  | .error e => .error e
  | .ok ob =>
    match serializePairsFV S values with
    | .error e => .error e
    | .ok pb => .ok (ob ++ pb)

/-- Untagged serialization of a list of `JdwpValue`s
(`SerializeAsUntagged` per element). -/
def serializeUntaggedList (S : Sizes) :
    List JdwpVal → Except JdwpErr (List Nat)
  | [] => .ok []
  | v :: rest =>
    match serializeUntagged S v with
    | .error e => .error e
    | .ok vb =>
      match serializeUntaggedList S rest with
      | .error e => .error e
      | .ok tb => .ok (vb ++ tb)

/-- `array_reference::SetValuesCommand::SerializeImpl`: array ID,
4-byte first index, then each value untagged; no header, no count. -/
def arrayReferenceSetValuesSerialize (S : Sizes) (arrayId firstIndex : Nat)
    (values : List JdwpVal) : Except JdwpErr (List Nat) :=
  match serializeVar S.objId arrayId with
  | .error e => .error e
  | .ok ab =>
    match serializeUntaggedList S values with
    | .error e => .error e
    | .ok vb => .ok (ab ++ (beBytes 4 firstIndex ++ vb))

/-- The event kinds for which `IJdwpEvent::FromComposite` has a case and
for which an `events::` class exists (18 kinds; there is no `FramePop`). -/
inductive EventKind where
  | vmStart | singleStep | breakpoint | methodEntry | methodExit
  | methodExitWithReturnValue | monitorContendedEnter
  | monitorContendedEntered | monitorWait | monitorWaited | exception
  | threadStart | threadDeath | classPrepare | classUnload | fieldAccess
  | fieldModification | vmDeath
  deriving DecidableEq, Repr

/-- `JdwpEventKind` byte value of each handled event kind. -/
def kindCode : EventKind → Nat
  | .vmStart => 90
  | .singleStep => 1
  | .breakpoint => 2
  | .methodEntry => 40
  | .methodExit => 41
  | .methodExitWithReturnValue => 42
  | .monitorContendedEnter => 43
  | .monitorContendedEntered => 44
  | .monitorWait => 45
  | .monitorWaited => 46
  | .exception => 4
  | .threadStart => 6
  | .threadDeath => 7
  | .classPrepare => 8
  | .classUnload => 9
  | .fieldAccess => 20
  | .fieldModification => 21
  | .vmDeath => 99

/-- The dispatch `switch` of `IJdwpEvent::FromComposite`: which event
object is constructed for an event-kind byte; `none` models the default
branch that throws "Illegal eventKind in composite event". -/
def eventForKind (b : Nat) : Option EventKind :=
  if b = 90 then some .vmStart
  else if b = 1 then some .singleStep
  else if b = 2 then some .breakpoint
  else if b = 40 then some .methodEntry
  else if b = 41 then some .methodExit
  else if b = 42 then some .methodExitWithReturnValue
  else if b = 43 then some .monitorContendedEnter
  else if b = 44 then some .monitorContendedEntered
  else if b = 45 then some .monitorWait
  else if b = 46 then some .monitorWaited
  else if b = 4 then some .exception
  else if b = 6 then some .threadStart
  else if b = 7 then some .threadDeath
  else if b = 8 then some .classPrepare
  else if b = 9 then some .classUnload
  else if b = 20 then some .fieldAccess
  else if b = 21 then some .fieldModification
  else if b = 99 then some .vmDeath
  else none

/-- The freshly constructed field tuple of each `events::` class (the
`Fields` template argument of its `EventBase`). -/
def eventTemplate : EventKind → List JdwpField
  | .vmStart => [.prim .int 0, .varId .threadId 0]
  | .singleStep => [.prim .int 0, .varId .threadId 0, .location 0 0 0 0]
  | .breakpoint => [.prim .int 0, .varId .threadId 0, .location 0 0 0 0]
  | .methodEntry => [.prim .int 0, .varId .threadId 0, .location 0 0 0 0]
  | .methodExit => [.prim .int 0, .varId .threadId 0, .location 0 0 0 0]
  | .methodExitWithReturnValue =>
    [.prim .int 0, .varId .threadId 0, .location 0 0 0 0, .value 0 .voidV]
  | .monitorContendedEnter =>
    [.prim .int 0, .varId .threadId 0, .taggedObjId 0 0, .location 0 0 0 0]
  | .monitorContendedEntered =>
    [.prim .int 0, .varId .threadId 0, .taggedObjId 0 0, .location 0 0 0 0]
  | .monitorWait =>
    [.prim .int 0, .varId .threadId 0, .taggedObjId 0 0, .location 0 0 0 0,
      .prim .long 0]
  | .monitorWaited =>
    [.prim .int 0, .varId .threadId 0, .taggedObjId 0 0, .location 0 0 0 0,
      .prim .bool 0]
  | .exception =>
    [.prim .int 0, .varId .threadId 0, .location 0 0 0 0, .taggedObjId 0 0,
      .location 0 0 0 0]
  | .threadStart => [.prim .int 0, .varId .threadId 0]
  | .threadDeath => [.prim .int 0, .varId .threadId 0]
  | .classPrepare =>
    [.prim .int 0, .varId .threadId 0, .prim .byte 0,
      .varId .referenceTypeId 0, .str [], .prim .int 0]
  | .classUnload => [.prim .int 0, .str []]
  | .fieldAccess =>
    [.prim .int 0, .varId .threadId 0, .location 0 0 0 0, .prim .byte 0,
      .varId .referenceTypeId 0, .varId .fieldId 0, .taggedObjId 0 0]
  | .fieldModification =>
    [.prim .int 0, .varId .threadId 0, .location 0 0 0 0, .prim .byte 0,
      .varId .referenceTypeId 0, .varId .fieldId 0, .taggedObjId 0 0,
      .value 0 .voidV]
  | .vmDeath => [.prim .int 0]

/-- `EventBase::FromEncodedImpl`: folds `FromEncoded` over the field
tuple, each field consuming a prefix of the remaining bytes; returns the
populated fields and the total bytes consumed. -/
def decodeFields (S : Sizes) : List JdwpField → List Nat →
    Except JdwpErr (List JdwpField × Nat)
  | [], _ => .ok ([], 0)
  | f :: rest, data =>
    match fromEncodedField S f data with
    | .error e => .error e
    | .ok (f', n) =>
      match decodeFields S rest (data.drop n) with
      | .error e => .error e
      | .ok (rest', m) => .ok (f' :: rest', n + m)

/-- `IJdwpEvent::FromEncoded`: reads the event-kind byte, throws "Wrong
IJdwpEvent instance for event" when it differs from the object's own
kind, otherwise returns `1 + FromEncodedImpl(encoded.substr(1))`. -/
def eventFromEncoded (S : Sizes) (k : EventKind) (data : List Nat) :
    Except JdwpErr ((EventKind × List JdwpField) × Nat) :=
  if data.getD 0 0 = kindCode k then
    match decodeFields S (eventTemplate k) (data.drop 1) with
    | .error e => .error e
    | .ok (flds, n) => .ok ((k, flds), 1 + n)
  else .error .wrongEventKind

/-- The record loop of `IJdwpEvent::FromComposite`: for each of `n`
records, read the event-kind byte, dispatch (unknown kinds throw), then
let the constructed event consume its bytes. -/
def parseEvents (S : Sizes) : Nat → List Nat →
    Except JdwpErr (List (EventKind × List JdwpField))
  | 0, _ => .ok []
  | n + 1, data =>
    match eventForKind (data.getD 0 0) with
    | none => .error .illegalEventKind
    | some k =>
      match eventFromEncoded S k data with
      | .error e => .error e
      | .ok (ev, consumed) =>
        match parseEvents S n (data.drop consumed) with
        | .error e => .error e
        | .ok rest => .ok (ev :: rest)

/-- `HeaderIsEvent` (`jdwp_packet.cpp`): the reply bit of the flags byte
(offset 8) is clear and the command-set byte (offset 9) is
`CommandSet::kEvent = 64`.  The command byte at offset 10 is not
inspected. -/
def headerIsEvent (h : List Nat) : Bool :=
  (Nat.land (h.getD 8 0) 128 == 0) && (h.getD 9 0 == 64)

/-- `IJdwpEvent::FromComposite`: rejects non-event headers, skips the
suspend-policy byte at offset 11, reads the 4-byte event count at offset
12, then parses that many records starting at offset 16.  The count is
read into a `JdwpInt` and compared as a signed 32-bit `int`, so counts
with the sign bit set make the loop run zero times. -/
def fromComposite (S : Sizes) (encoded : List Nat) :
    Except JdwpErr (List (EventKind × List JdwpField)) :=
  if headerIsEvent encoded then
    let cnt := readBE 4 (encoded.drop 12)
    parseEvents S (if cnt < 2 ^ 31 then cnt else 0) (encoded.drop 16)
  else .error .nonEventPacket

/-- The twelve-armed `event_request::SetCommand::Modifier` variant, in
declaration order (variant index 0..11; the wire `modKind` is the index
plus one).  Booleans are stored as `JdwpBool` byte values. -/
inductive Modifier where
  | count : Nat → Modifier
  | conditional : Nat → Modifier
  | threadOnly : Nat → Modifier
  | classOnly : Nat → Modifier
  | classMatch : List Nat → Modifier
  | classExclude : List Nat → Modifier
  | locationOnly : (typeTag classId methodId index : Nat) → Modifier
  | exceptionOnly : (refTypeId caught uncaught : Nat) → Modifier
  | fieldOnly : (refTypeId fieldId : Nat) → Modifier
  | step : (threadId size depth : Nat) → Modifier
  | instanceOnly : Nat → Modifier
  | sourceNameMatch : List Nat → Modifier
  deriving DecidableEq, Repr

/-- `std::variant::index()` of a modifier. -/
def variantIndex : Modifier → Nat
  | .count _ => 0
  | .conditional _ => 1
  | .threadOnly _ => 2
  | .classOnly _ => 3
  | .classMatch _ => 4
  | .classExclude _ => 5
  | .locationOnly _ _ _ _ => 6
  | .exceptionOnly _ _ _ => 7
  | .fieldOnly _ _ => 8
  | .step _ _ _ => 9
  | .instanceOnly _ => 10
  | .sourceNameMatch _ => 11

/-- Serialization of a modifier's field tuple (the `TupleForEach` body of
`event_request::SetCommand::SerializeImpl`), using each field type's own
`Serialize`. -/
def serializeModifierFields (S : Sizes) : Modifier →
    Except JdwpErr (List Nat)
  | .count n => .ok (beBytes 4 n)
  | .conditional n => .ok (beBytes 4 n)
  | .threadOnly t => serializeVar S.objId t
  | .classOnly r => serializeVar S.objId r
  | .classMatch s => .ok (serializeString s)
  | .classExclude s => .ok (serializeString s)
  | .locationOnly tt c m idx => serializeLocation S tt c m idx
  | .exceptionOnly r caught uncaught =>
    match serializeVar S.objId r with
    | .error e => .error e
    | .ok rb => .ok (rb ++ (beBytes 1 caught ++ beBytes 1 uncaught))
  | .fieldOnly r f =>
    match serializeVar S.objId r with
    | .error e => .error e
    | .ok rb =>
      match serializeVar S.fieldId f with
      | .error e => .error e
      | .ok fb => .ok (rb ++ fb)
  | .step t sz depth =>
    match serializeVar S.objId t with
    | .error e => .error e
    | .ok tb => .ok (tb ++ (beBytes 4 sz ++ beBytes 4 depth))
  | .instanceOnly o => serializeVar S.objId o
  | .sourceNameMatch s => .ok (serializeString s)

/-- One modifier on the wire: the `modKind` byte (variant index + 1)
followed by the modifier's fields. -/
def serializeModifier (S : Sizes) (m : Modifier) :
    Except JdwpErr (List Nat) :=
  match serializeModifierFields S m with
  | .error e => .error e
  | .ok fb => .ok ((variantIndex m + 1) % 256 :: fb)

/-- The modifier loop of `event_request::SetCommand::SerializeImpl`. -/
def serializeModifiers (S : Sizes) : List Modifier →
    Except JdwpErr (List Nat)
  | [] => .ok []
  | m :: rest =>
    match serializeModifier S m with
    | .error e => .error e
    | .ok mb =>
      match serializeModifiers S rest with
      | .error e => .error e
      | .ok tb => .ok (mb ++ tb)

/-- `event_request::SetCommand::SerializeImpl`: body = event-kind byte,
suspend-policy byte, 4-byte modifier count, then the modifiers; framed by
`ProduceHeader(CommandSet::kEventRequest = 15, EventRequest::kSet = 1,
body.length, id)`. -/
def setCommandSerialize (S : Sizes) (eventKind suspendPolicy : Nat)
    (mods : List Modifier) (id : Nat) : Except JdwpErr (List Nat) :=
  match serializeModifiers S mods with
  | .error e => .error e
  | .ok mb =>
    let body := beBytes 1 eventKind ++ (beBytes 1 suspendPolicy ++
      (beBytes 4 mods.length ++ mb))
    match produceHeader 15 1 body.length id with
    | .error e => .error e
    | .ok hdr => .ok (hdr ++ body)

/-- `impl::GetNextId` (`jdwp_packet.cpp`): the mutex-guarded `static
uint32_t next_id` counter, shared by every packet construction in the
process; returns the current value and leaves the incremented (wrapping
32-bit) value behind. -/
def getNextId (s : Nat) : Nat × Nat := (s, (s + 1) % 4294967296)

/-- Counter state before the `n`-th call of `GetNextId` (the counter
starts at 0). -/
def nthIdState : Nat → Nat
  | 0 => 0
  | n + 1 => (getNextId (nthIdState n)).2

/-- Packet ID assigned by the `n`-th packet construction (0-based). -/
def nthId (n : Nat) : Nat := (getNextId (nthIdState n)).1

/-- `JdwpCon::Impl::GetObjIdSizeImpl` (`jdwp_con.cpp`): the sizes table
before it is populated — the stub returns 0 (a
`#warning Fix Get(type)IdSize to use messages once implemented` marks it
as unfinished). -/
def getObjIdSizeStub : Nat := 0

/-- Wire width of a `JdwpValue` payload serialized untagged. -/
def untaggedLen (S : Sizes) : JdwpVal → Nat
  | .voidV => 0
  | .primV k _ => primWidth k
  | .objIdV _ => S.objId

/-- Total wire width of the `(field ID, untagged value)` pairs of the
SetValues overrides. -/
def pairsLen (S : Sizes) (vals : List (Nat × JdwpVal)) : Nat :=
  (vals.map (fun p => S.fieldId + untaggedLen S p.2)).sum

/-- Total wire width of a list of untagged values. -/
def untaggedListLen (S : Sizes) (vals : List JdwpVal) : Nat :=
  (vals.map (untaggedLen S)).sum

theorem beBytes_length (w v : Nat) : (beBytes w v).length = w := by
  induction w generalizing v with
  | zero => rfl
  | succ w ih => simp [beBytes, ih]

theorem beVal_from (a : Nat) (l : List Nat) :
    l.foldl (fun a b => a * 256 + b) a = a * 256 ^ l.length + beVal l := by
  induction l generalizing a with
  | nil => simp [beVal]
  | cons b rest ih =>
    simp only [List.foldl_cons, List.length_cons, beVal, Nat.zero_mul,
      Nat.zero_add]
    rw [ih (a * 256 + b), ih b]
    ring

theorem beVal_beBytes (w v : Nat) : beVal (beBytes w v) = v % 256 ^ w := by
  induction w generalizing v with
  | zero => simp [beBytes, beVal, Nat.mod_one]
  | succ w ih =>
    simp only [beBytes, beVal, List.foldl_append, List.foldl_cons,
      List.foldl_nil]
    have h1 : (beBytes w (v / 256)).foldl (fun a b => a * 256 + b) 0
        = v / 256 % 256 ^ w := ih (v / 256)
    rw [h1]
    have h2 : 256 ^ (w + 1) = 256 * 256 ^ w := by ring
    rw [h2, Nat.mod_mul]
    ring

theorem beVal_beBytes_of_lt {w v : Nat} (h : v < 256 ^ w) :
    beVal (beBytes w v) = v := by
  rw [beVal_beBytes, Nat.mod_eq_of_lt h]

theorem padTake_append {w : Nat} {l : List Nat} (r : List Nat)
    (h : l.length = w) : padTake w (l ++ r) = l := by
  subst h
  simp [padTake, List.take_left]

theorem readBE_append {w : Nat} {l : List Nat} (r : List Nat)
    (h : l.length = w) : readBE w (l ++ r) = beVal l := by
  rw [readBE, padTake_append r h]

theorem readBE_beBytes_append {w v : Nat} (r : List Nat) (h : v < 256 ^ w) :
    readBE w (beBytes w v ++ r) = v := by
  rw [readBE_append r (beBytes_length w v), beVal_beBytes_of_lt h]

theorem drop_append_len {l : List Nat} (r : List Nat) {n : Nat}
    (h : l.length = n) : (l ++ r).drop n = r := by
  subst h
  simp [List.drop_left]

theorem padTake_exact {w : Nat} {l : List Nat} (h : l.length = w) :
    padTake w l = l := by
  subst h
  simp [padTake]

theorem readBE_beBytes {w v : Nat} (h : v < 256 ^ w) :
    readBE w (beBytes w v) = v := by
  rw [readBE, padTake_exact (beBytes_length w v), beVal_beBytes_of_lt h]

theorem fromVar_zero_append {w v : Nat} (r : List Nat) (h : v < 256 ^ w) :
    fromVar w 0 (beBytes w v ++ r) = (v, w) := by
  simp [fromVar, readBE_beBytes_append r h]

theorem fromVar_zero {w v : Nat} (h : v < 256 ^ w) :
    fromVar w 0 (beBytes w v) = (v, w) := by
  simp [fromVar, readBE_beBytes h]

theorem serializeVar_ok {w : Nat} (v : Nat) (h : w ≤ 8) :
    serializeVar w v = .ok (beBytes w v) := by
  simp [serializeVar, Nat.not_lt.mpr h]

theorem tagIsObjType_ne_void {t : Nat} (h : tagIsObjType t = true) :
    (t == 86) = false := by
  rcases eq_or_ne t 86 with h' | h'
  · subst h'; simp [tagIsObjType] at h
  · simp [h']

theorem tagIsObjType_primTag (k : PrimKind) :
    tagIsObjType (primTag k) = false := by
  cases k <;> rfl

theorem primTag_ne_void (k : PrimKind) : (primTag k == 86) = false := by
  cases k <;> rfl

theorem getSizeByTag_obj (S : Sizes) {t : Nat}
    (h : tagIsObjType t = true) : getSizeByTag S t = .ok S.objId := by
  simp [getSizeByTag, h]

theorem getSizeByTag_primTag (S : Sizes) (k : PrimKind) :
    getSizeByTag S (primTag k) = .ok (primWidth k) := by
  cases k <;> rfl

theorem fromUntagged_primTag (S : Sizes) (k : PrimKind) (data : List Nat) :
    fromUntagged S (primTag k) data =
      .ok (.primV k (readBE (primWidth k) data), primWidth k) := by
  cases k <;> rfl

theorem fromUntagged_obj (S : Sizes) {t : Nat} (data : List Nat)
    (h : tagIsObjType t = true) :
    fromUntagged S t data = .ok (.objIdV (readBE S.objId data), S.objId) := by
  rw [fromUntagged, tagIsObjType_ne_void h]
  simp [h]

theorem primTag_inj : ∀ (a b : PrimKind), primTag a = primTag b → a = b := by
  intro a b
  cases a <;> cases b <;> decide

theorem primTag_of_known {t : Nat} (hk : tagKnownB t = true)
    (ho : tagIsObjType t = false) (hv : (t == 86) = false) :
    ∃ k, primTag k = t := by
  by_cases h66 : t = 66
  · exact ⟨.byte, h66.symm⟩
  by_cases h67 : t = 67
  · exact ⟨.char, h67.symm⟩
  by_cases h70 : t = 70
  · exact ⟨.float, h70.symm⟩
  by_cases h68 : t = 68
  · exact ⟨.double, h68.symm⟩
  by_cases h73 : t = 73
  · exact ⟨.int, h73.symm⟩
  by_cases h74 : t = 74
  · exact ⟨.long, h74.symm⟩
  by_cases h83 : t = 83
  · exact ⟨.short, h83.symm⟩
  by_cases h90 : t = 90
  · exact ⟨.bool, h90.symm⟩
  exfalso
  simp [tagKnownB, ho, hv, h66, h67, h70, h68, h73, h74, h83, h90] at hk

theorem take_append_len {l : List Nat} (r : List Nat) {n : Nat}
    (h : l.length = n) : (l ++ r).take n = l := by
  subst h
  simp [List.take_left]

theorem drop_append2 (l1 l2 r : List Nat) :
    (l1 ++ (l2 ++ r)).drop (l1.length + l2.length) = r := by
  rw [← List.append_assoc]
  exact drop_append_len r (by simp)

theorem taggedValueFrom_cons_obj {S : Sizes} {t x : Nat} (r : List Nat)
    (hobj : tagIsObjType t = true) (hx : x < 256 ^ S.objId) :
    taggedValueFrom S (t :: (beBytes S.objId x ++ r)) =
      .ok ((t, .objIdV x), 1 + S.objId) := by
  simp [taggedValueFrom, fromUntagged_obj S _ hobj,
    readBE_beBytes_append r hx]

theorem regionObjRound (S : Sizes) (hw : S.objId ≤ 8) :
    ∀ (elems : List (Nat × JdwpVal)) (eb rest : List Nat),
      elems.all (wfObjElemB S) = true →
      serializeRegionElems S true elems = .ok eb →
      decodeObjElems S elems.length (eb ++ rest) = .ok elems ∧
        eb.length = elems.length * (S.objId + 1) := by
  intro elems
  induction elems with
  | nil =>
    intro eb rest _ hser
    simp only [serializeRegionElems, Except.ok.injEq] at hser
    subst hser
    simp [decodeObjElems]
  | cons p tl ih =>
    obtain ⟨t, v⟩ := p
    intro eb rest hwf hser
    simp only [List.all_cons, Bool.and_eq_true] at hwf
    obtain ⟨hp, htl⟩ := hwf
    cases v with
    | voidV => simp [wfObjElemB] at hp
    | primV k x => simp [wfObjElemB] at hp
    | objIdV x =>
      simp only [wfObjElemB, Bool.and_eq_true, decide_eq_true_eq] at hp
      obtain ⟨⟨ht256, hobj⟩, hx⟩ := hp
      cases htl' : serializeRegionElems S true tl with
      | error e =>
        simp only [serializeRegionElems, serializeUntagged,
          serializeVar_ok x hw, htl'] at hser
        exact Except.noConfusion hser
      | ok tlb =>
        simp only [serializeRegionElems, serializeUntagged,
          serializeVar_ok x hw, htl', if_true, Except.ok.injEq] at hser
        obtain ⟨hdec, hlen⟩ := ih tlb rest htl htl'
        subst hser
        constructor
        · simp only [List.length_cons, Nat.mod_eq_of_lt ht256,
            List.cons_append, List.append_assoc, decodeObjElems,
            taggedValueFrom_cons_obj (tlb ++ rest) hobj hx,
            List.drop_succ_cons,
            drop_append_len (tlb ++ rest) (beBytes_length S.objId x), hdec]
        · rw [List.length_append, List.length_cons, beBytes_length, hlen,
            List.length_cons]
          ring

theorem regionPrimRound (S : Sizes) (k : PrimKind) :
    ∀ (elems : List (Nat × JdwpVal)) (eb rest : List Nat),
      elems.all
        (fun p => p.1 == primTag k && wfValB S (primTag k) p.2) = true →
      serializeRegionElems S false elems = .ok eb →
      decodeUntaggedElems S (primTag k) (primWidth k) elems.length
          (eb ++ rest) = .ok elems ∧
        eb.length = elems.length * primWidth k := by
  intro elems
  induction elems with
  | nil =>
    intro eb rest _ hser
    simp only [serializeRegionElems, Except.ok.injEq] at hser
    subst hser
    simp [decodeUntaggedElems]
  | cons p tl ih =>
    obtain ⟨t, v⟩ := p
    intro eb rest hwf hser
    simp only [List.all_cons, Bool.and_eq_true] at hwf
    obtain ⟨⟨ht, hv⟩, htl⟩ := hwf
    have ht' : t = primTag k := by simpa using ht
    cases v with
    | voidV =>
      simp [wfValB.eq_def, primTag_ne_void k] at hv
    | objIdV x =>
      simp [wfValB.eq_def, tagIsObjType_primTag k] at hv
    | primV k' x =>
      simp only [wfValB.eq_def, Bool.and_eq_true, beq_iff_eq,
        decide_eq_true_eq] at hv
      obtain ⟨hk', hx⟩ := hv
      have hkk : k' = k := primTag_inj k' k hk'.symm
      subst hkk
      subst ht'
      cases htl' : serializeRegionElems S false tl with
      | error e =>
        simp only [serializeRegionElems, serializeUntagged, htl'] at hser
        exact Except.noConfusion hser
      | ok tlb =>
        simp only [serializeRegionElems, serializeUntagged, htl',
          Bool.false_eq_true, if_false, Except.ok.injEq] at hser
        obtain ⟨hdec, hlen⟩ := ih tlb rest htl htl'
        subst hser
        constructor
        · simp only [List.length_cons, List.append_assoc,
            decodeUntaggedElems,
            take_append_len (tlb ++ rest) (beBytes_length _ _),
            fromUntagged_primTag, readBE_beBytes hx,
            drop_append_len (tlb ++ rest) (beBytes_length _ _),
            hdec]
        · rw [List.length_append, beBytes_length, hlen, List.length_cons]
          ring

theorem wfSizesB_spec {S : Sizes} (h : wfSizesB S = true) :
    S.objId ≤ 8 ∧ S.methodId ≤ 8 ∧ S.fieldId ≤ 8 ∧ S.frameId ≤ 8 := by
  simp only [wfSizesB, Bool.and_eq_true, decide_eq_true_eq] at h
  tauto

theorem idWidth_le {S : Sizes} (h : wfSizesB S = true) (k : IdKind) :
    idWidth S k ≤ 8 := by
  obtain ⟨h1, h2, h3, h4⟩ := wfSizesB_spec h
  cases k <;> simp only [idWidth] <;> assumption

theorem pow256_eq : (2 : Nat) ^ 32 = 256 ^ 4 := by norm_num

theorem takeWhile_append_replicate {l : List Nat}
    (h : zerosAreSuffix l = true) :
    l.takeWhile (fun b => b != 0) ++
      List.replicate (l.length - (l.takeWhile (fun b => b != 0)).length) 0
      = l := by
  induction l with
  | nil => rfl
  | cons b rest ih =>
    by_cases hb : b = 0
    · subst hb
      simp only [zerosAreSuffix, beq_self_eq_true, if_true] at h
      have hrest : rest = List.replicate rest.length 0 := by
        apply List.eq_replicate_of_mem
        intro x hx
        simpa using (List.all_eq_true.mp h) x hx
      simp only [List.takeWhile_cons, bne_self_eq_false, Bool.false_eq_true,
        if_false, List.length_nil, List.nil_append, List.length_cons,
        Nat.sub_zero, List.replicate_succ]
      exact congrArg (0 :: ·) hrest.symm
    · have hbb : (b != 0) = true := by simp [hb]
      have hzs : zerosAreSuffix rest = true := by
        simpa [zerosAreSuffix, hb] using h
      simp only [List.takeWhile_cons, hbb, if_true, List.length_cons,
        Nat.succ_sub_succ, List.cons_append]
      exact congrArg (b :: ·) (ih hzs)

theorem padTake_cString {w : Nat} {l : List Nat} (hlen : l.length = w)
    (h : zerosAreSuffix l = true) : padTake w (cString l) = l := by
  have hle : (l.takeWhile (fun b => b != 0)).length ≤ w := by
    rw [← hlen]
    exact (List.takeWhile_prefix _).length_le
  rw [padTake, cString, List.take_of_length_le hle, ← hlen]
  exact takeWhile_append_replicate h

theorem readBE_cString_beBytes {w o : Nat} (ho : o < 256 ^ w)
    (h : zerosAreSuffix (beBytes w o) = true) :
    readBE w (cString (beBytes w o)) = o := by
  rw [readBE, padTake_cString (beBytes_length w o) h,
    beVal_beBytes_of_lt ho]

/-- Claim C1, as amended: for every field kind and every representable
value (`wfFieldB`), given a sizes table with widths in 1..8, decoding the
serialized bytes into a freshly constructed field of the same kind yields
the value back, and the decoder reports exactly the length of the encoded
byte string.  The well-formedness predicate excludes — as the decoder's
behaviour forces — array regions with element tag void and at least one
element, and tagged object IDs whose big-endian payload has a zero byte
followed by a nonzero byte (which the NUL-truncating `cString` conversion
inside `JdwpTaggedObjectId::FromEncodedImpl` cannot deliver intact). -/
theorem fieldRoundTrip (S : Sizes) (f : JdwpField) (bs : List Nat)
    (hS : wfSizesB S = true) (hf : wfFieldB S f = true)
    (hser : serializeField S f = .ok bs) :
    fromEncodedField S (freshLike f) bs = .ok (f, bs.length) := by
  obtain ⟨ho8, hm8, hf8, hr8⟩ := wfSizesB_spec hS
  cases f with
  | prim k v =>
    simp only [serializeField, Except.ok.injEq] at hser
    subst hser
    simp only [wfFieldB, decide_eq_true_eq] at hf
    simp [freshLike, fromEncodedField, readBE_beBytes hf, beBytes_length]
  | varId k v =>
    simp only [wfFieldB, decide_eq_true_eq] at hf
    simp only [serializeField, serializeVar_ok v (idWidth_le hS k),
      Except.ok.injEq] at hser
    subst hser
    simp [freshLike, fromEncodedField, fromVar_zero hf, beBytes_length]
  | taggedObjId t o =>
    simp only [wfFieldB, Bool.and_eq_true, decide_eq_true_eq] at hf
    obtain ⟨⟨ht, hobj⟩, hzs⟩ := hf
    simp only [serializeField, serializeVar_ok o ho8,
      Except.ok.injEq] at hser
    subst hser
    simp [freshLike, fromEncodedField, fromVar,
      readBE_cString_beBytes hobj hzs, beBytes_length,
      Nat.mod_eq_of_lt ht, Nat.add_comm]
  | location tt c m idx =>
    simp only [wfFieldB, Bool.and_eq_true, decide_eq_true_eq] at hf
    obtain ⟨⟨⟨htt, hc⟩, hm⟩, hidx⟩ := hf
    simp only [serializeField, serializeLocation, serializeVar_ok c ho8,
      serializeVar_ok m hm8, Except.ok.injEq] at hser
    subst hser
    have hd2 : ∀ a : Nat, (a :: (beBytes S.objId c ++
        (beBytes S.methodId m ++ beBytes 8 idx))).drop (1 + S.objId) =
        beBytes S.methodId m ++ beBytes 8 idx := by
      intro a
      rw [Nat.add_comm 1 S.objId, List.drop_succ_cons,
        drop_append_len _ (beBytes_length _ _)]
    have hd3 : ∀ a : Nat, (a :: (beBytes S.objId c ++
        (beBytes S.methodId m ++ beBytes 8 idx))).drop
          (1 + S.objId + S.methodId) = beBytes 8 idx := by
      intro a
      rw [show 1 + S.objId + S.methodId = S.objId + S.methodId + 1 by omega,
        List.drop_succ_cons,
        show S.objId + S.methodId =
          (beBytes S.objId c).length + (beBytes S.methodId m).length by
            simp [beBytes_length]]
      exact drop_append2 _ _ _
    simp only [freshLike, fromEncodedField, List.drop_succ_cons,
      List.drop_zero, List.getD_cons_zero, hd2, hd3,
      fromVar_zero_append _ hc, fromVar_zero_append _ hm,
      readBE_beBytes hidx, Nat.mod_eq_of_lt htt, Except.ok.injEq,
      Prod.mk.injEq, List.length_cons, List.length_append, beBytes_length]
    exact ⟨trivial, by omega⟩
  | str d =>
    simp only [wfFieldB, decide_eq_true_eq] at hf
    simp only [serializeField, serializeString, Except.ok.injEq] at hser
    subst hser
    have hlen : readBE 4 (beBytes 4 d.length ++ d) = d.length :=
      readBE_beBytes_append d (by rw [← pow256_eq]; exact hf)
    simp only [freshLike, fromEncodedField, hlen,
      drop_append_len d (beBytes_length _ _), List.take_length,
      List.length_append, beBytes_length]
  | value t v =>
    simp only [wfFieldB, Bool.and_eq_true, decide_eq_true_eq] at hf
    obtain ⟨ht, hv⟩ := hf
    cases v with
    | voidV =>
      simp only [wfValB, beq_iff_eq] at hv
      subst hv
      simp only [serializeField, serializeUntagged, Except.ok.injEq] at hser
      subst hser
      simp [freshLike, fromEncodedField, taggedValueFrom, fromUntagged]
    | primV k x =>
      simp only [wfValB, Bool.and_eq_true, beq_iff_eq,
        decide_eq_true_eq] at hv
      obtain ⟨htk, hx⟩ := hv
      subst htk
      simp only [serializeField, serializeUntagged, Except.ok.injEq] at hser
      subst hser
      simp [freshLike, fromEncodedField, taggedValueFrom,
        Nat.mod_eq_of_lt ht, fromUntagged_primTag, readBE_beBytes hx,
        beBytes_length, Nat.add_comm]
    | objIdV x =>
      simp only [wfValB, Bool.and_eq_true, decide_eq_true_eq] at hv
      obtain ⟨hobj, hx⟩ := hv
      simp only [serializeField, serializeUntagged,
        serializeVar_ok x ho8, Except.ok.injEq] at hser
      subst hser
      simp [freshLike, fromEncodedField, taggedValueFrom,
        Nat.mod_eq_of_lt ht, fromUntagged_obj S _ hobj,
        readBE_beBytes hx, beBytes_length, Nat.add_comm]
  | region t elems =>
    simp only [wfFieldB, Bool.and_eq_true, decide_eq_true_eq] at hf
    obtain ⟨⟨⟨ht, hn⟩, hknown⟩, helems⟩ := hf
    cases hob : tagIsObjType t with
    | true =>
      rw [hob] at helems
      simp only [if_true] at helems
      cases hse : serializeRegionElems S true elems with
      | error e =>
        rw [serializeField.eq_def] at hser
        simp only [hob, hse] at hser
        exact Except.noConfusion hser
      | ok eb =>
        rw [serializeField.eq_def] at hser
        simp only [hob, hse, Except.ok.injEq] at hser
        subst hser
        obtain ⟨hdec, hlen⟩ := regionObjRound S ho8 elems eb [] helems hse
        rw [List.append_nil] at hdec
        have hcnt : readBE 4 (beBytes 4 elems.length ++ eb) = elems.length :=
          readBE_beBytes_append eb (by rw [← pow256_eq]; exact hn)
        have hd4 : (beBytes 4 elems.length ++ eb).drop 4 = eb :=
          drop_append_len eb (beBytes_length _ _)
        simp only [freshLike, fromEncodedField, List.getD_cons_zero,
          List.drop_succ_cons, List.drop_zero, hcnt,
          getSizeByTag_obj S hob, hob, if_true,
          Nat.mod_eq_of_lt ht, hd4, hdec, Except.ok.injEq, Prod.mk.injEq,
          List.length_cons, List.length_append, beBytes_length, hlen]
        exact ⟨trivial, by omega⟩
    | false =>
      rw [hob] at helems
      simp only [Bool.false_eq_true, if_false, Bool.and_eq_true] at helems
      obtain ⟨hvoid, helems⟩ := helems
      cases hse : serializeRegionElems S false elems with
      | error e =>
        rw [serializeField.eq_def] at hser
        simp only [hob, hse] at hser
        exact Except.noConfusion hser
      | ok eb =>
        rw [serializeField.eq_def] at hser
        simp only [hob, hse, Except.ok.injEq] at hser
        subst hser
        have hcnt : readBE 4 (beBytes 4 elems.length ++ eb) = elems.length :=
          readBE_beBytes_append eb (by rw [← pow256_eq]; exact hn)
        have hd4 : (beBytes 4 elems.length ++ eb).drop 4 = eb :=
          drop_append_len eb (beBytes_length _ _)
        by_cases hvt : t = 86
        · subst hvt
          simp at hvoid
          have helnil : elems = [] := by
            cases elems with
            | nil => rfl
            | cons a l => simp [List.isEmpty] at hvoid
          subst helnil
          simp only [serializeRegionElems, Except.ok.injEq] at hse
          subst hse
          simp [freshLike, fromEncodedField, getSizeByTag, tagIsObjType,
            decodeUntaggedElems, readBE, padTake, beVal, beBytes]
        · obtain ⟨k, hk⟩ := primTag_of_known hknown hob
            (by simp [hvt])
          subst hk
          obtain ⟨hdec, hlen⟩ :=
            regionPrimRound S k elems eb [] helems hse
          rw [List.append_nil] at hdec
          have hw0 : (primWidth k == 0) = false := by cases k <;> rfl
          simp only [freshLike, fromEncodedField, List.getD_cons_zero,
            List.drop_succ_cons, List.drop_zero, hcnt,
            getSizeByTag_primTag S k, hob, Bool.false_eq_true, if_false,
            hw0, Nat.mod_eq_of_lt ht, hd4, hdec, Except.ok.injEq,
            Prod.mk.injEq, List.length_cons, List.length_append,
            beBytes_length, hlen]
          exact ⟨trivial, by omega⟩

theorem serializeVar_length {w v : Nat} {bs : List Nat}
    (h : serializeVar w v = .ok bs) : bs.length = w := by
  by_cases hw : w > 8
  · simp [serializeVar, hw] at h
  · simp only [serializeVar, if_neg hw, Except.ok.injEq] at h
    rw [← h, beBytes_length]

theorem serializeUntagged_length {S : Sizes} {v : JdwpVal} {bs : List Nat}
    (h : serializeUntagged S v = .ok bs) : bs.length = untaggedLen S v := by
  cases v with
  | voidV =>
    simp only [serializeUntagged, Except.ok.injEq] at h
    rw [← h]
    rfl
  | primV k x =>
    simp only [serializeUntagged, Except.ok.injEq] at h
    rw [← h, beBytes_length]
    rfl
  | objIdV x => exact serializeVar_length h

theorem serializePairsFV_length {S : Sizes} :
    ∀ {vals : List (Nat × JdwpVal)} {bs : List Nat},
      serializePairsFV S vals = .ok bs → bs.length = pairsLen S vals := by
  intro vals
  induction vals with
  | nil =>
    intro bs h
    simp only [serializePairsFV, Except.ok.injEq] at h
    rw [← h]
    rfl
  | cons p tl ih =>
    obtain ⟨fid, v⟩ := p
    intro bs h
    simp only [serializePairsFV] at h
    cases hf : serializeVar S.fieldId fid with
    | error e => rw [hf] at h; exact Except.noConfusion h
    | ok fb =>
      rw [hf] at h
      cases hv : serializeUntagged S v with
      | error e => rw [hv] at h; exact Except.noConfusion h
      | ok vb =>
        rw [hv] at h
        cases ht : serializePairsFV S tl with
        | error e => rw [ht] at h; exact Except.noConfusion h
        | ok tb =>
          rw [ht] at h
          simp only [Except.ok.injEq] at h
          rw [← h]
          simp only [List.length_append, serializeVar_length hf,
            serializeUntagged_length hv, ih ht, pairsLen, List.map_cons,
            List.sum_cons]
          omega

theorem serializeUntaggedList_length {S : Sizes} :
    ∀ {vals : List JdwpVal} {bs : List Nat},
      serializeUntaggedList S vals = .ok bs →
        bs.length = untaggedListLen S vals := by
  intro vals
  induction vals with
  | nil =>
    intro bs h
    simp only [serializeUntaggedList, Except.ok.injEq] at h
    rw [← h]
    rfl
  | cons v tl ih =>
    intro bs h
    simp only [serializeUntaggedList] at h
    cases hv : serializeUntagged S v with
    | error e => rw [hv] at h; exact Except.noConfusion h
    | ok vb =>
      rw [hv] at h
      cases ht : serializeUntaggedList S tl with
      | error e => rw [ht] at h; exact Except.noConfusion h
      | ok tb =>
        rw [ht] at h
        simp only [Except.ok.injEq] at h
        rw [← h]
        simp only [List.length_append, serializeUntagged_length hv, ih ht,
          untaggedListLen, List.map_cons, List.sum_cons]

theorem produceHeader_ok {cs cmd bl id : Nat} (h : bl ≤ 4294967284) :
    produceHeader cs cmd bl id = .ok (beBytes 4 (bl + 11) ++
      (beBytes 4 id ++ [0, cs % 256, cmd % 256])) := by
  rw [produceHeader, if_neg (by omega),
    Nat.mod_eq_of_lt (by omega : bl < 4294967296)]

theorem produceHeader_ok_inv {cs cmd bl id : Nat} {hdr : List Nat}
    (h : produceHeader cs cmd bl id = .ok hdr) :
    bl ≤ 4294967284 ∧ hdr = beBytes 4 (bl + 11) ++
      (beBytes 4 id ++ [0, cs % 256, cmd % 256]) := by
  by_cases hb : bl > 4294967295 - 11
  · simp [produceHeader, hb] at h
  · have hle : bl ≤ 4294967284 := by omega
    rw [produceHeader_ok hle] at h
    simp only [Except.ok.injEq] at h
    exact ⟨hle, h.symm⟩

theorem header_append_facts (cs cmd id : Nat) {bl : Nat} (body : List Nat)
    (hbl : bl ≤ 4294967284) (hb : body.length = bl) :
    11 ≤ ((beBytes 4 (bl + 11) ++
        (beBytes 4 id ++ [0, cs % 256, cmd % 256])) ++ body).length ∧
    beVal (((beBytes 4 (bl + 11) ++
        (beBytes 4 id ++ [0, cs % 256, cmd % 256])) ++ body).take 4) =
      ((beBytes 4 (bl + 11) ++
        (beBytes 4 id ++ [0, cs % 256, cmd % 256])) ++ body).length ∧
    ((((beBytes 4 (bl + 11) ++
        (beBytes 4 id ++ [0, cs % 256, cmd % 256])) ++ body).drop 8).take 3)
      = [0, cs % 256, cmd % 256] := by
  have hlen : ((beBytes 4 (bl + 11) ++
      (beBytes 4 id ++ [0, cs % 256, cmd % 256])) ++ body).length =
      bl + 11 := by
    simp only [List.length_append, beBytes_length, List.length_cons,
      List.length_nil, hb]
    omega
  refine ⟨by omega, ?_, ?_⟩
  · rw [hlen, List.append_assoc, take_append_len _ (beBytes_length _ _)]
    exact beVal_beBytes_of_lt (by
      have : (256 : Nat) ^ 4 = 4294967296 := by norm_num
      omega)
  · rw [List.append_assoc, List.append_assoc,
      show (8 : Nat) =
        (beBytes 4 (bl + 11)).length + (beBytes 4 id).length by
          simp [beBytes_length],
      drop_append2]
    simp

theorem getD_set_ne (v : Nat) (l : List Nat) {i j : Nat} (h : i ≠ j) :
    (l.set i v).getD j 0 = l.getD j 0 := by
  rw [List.getD_eq_getD_get?, List.getD_eq_getD_get?,
    List.get?_set_ne v l h]

theorem drop_set_of_lt (v : Nat) (l : List Nat) {i m : Nat} (h : i < m) :
    (l.set i v).drop m = l.drop m := by
  refine List.ext_get?_iff.mpr fun n => ?_
  rw [List.get?_eq_getElem?, List.get?_eq_getElem?, List.getElem?_drop,
    List.getElem?_drop, ← List.get?_eq_getElem?, ← List.get?_eq_getElem?]
  exact List.get?_set_ne v l (by omega)

theorem nthIdState_eq (n : Nat) : nthIdState n = n % 4294967296 := by
  induction n with
  | zero => rfl
  | succ n ih =>
    rw [nthIdState, getNextId, ih, Nat.add_mod n 1 4294967296]

theorem nthId_eq (n : Nat) : nthId n = n % 4294967296 := by
  rw [nthId, getNextId]
  exact nthIdState_eq n

theorem eventForKind_kindCode (k : EventKind) :
    eventForKind (kindCode k) = some k := by
  cases k <;> rfl

/-- C1 (counterexamples to the claim as stated).  First: the array
region with element tag void (`'V'` = 86) and one element encodes to the
five bytes `86 00 00 00 01`, but decoding those bytes yields a region
with an *empty* element list (the reported byte count, 5, does equal the
encoded length).  Second: the tagged object ID `(tag 'L' = 76, ID 1)` at
object-ID width 8 encodes to `4C 00 00 00 00 00 00 00 01`, but the
NUL-truncating `const char*` conversion in
`JdwpTaggedObjectId::FromEncodedImpl` cuts the payload at its leading
zero byte, so the decode returns ID 0 — `decode (encode v) ≠ v` in both
cases. -/
theorem fieldRoundTripCounterexamples :
    (serializeField ⟨8, 8, 8, 8⟩ (.region 86 [(86, .voidV)]) =
        .ok [86, 0, 0, 0, 1] ∧
      fromEncodedField ⟨8, 8, 8, 8⟩
        (freshLike (.region 86 [(86, .voidV)])) [86, 0, 0, 0, 1] =
        .ok (.region 86 [], 5) ∧
      JdwpField.region 86 [] ≠ .region 86 [(86, .voidV)]) ∧
    (serializeField ⟨8, 8, 8, 8⟩ (.taggedObjId 76 1) =
        .ok [76, 0, 0, 0, 0, 0, 0, 0, 1] ∧
      fromEncodedField ⟨8, 8, 8, 8⟩ (freshLike (.taggedObjId 76 1))
        [76, 0, 0, 0, 0, 0, 0, 0, 1] = .ok (.taggedObjId 76 0, 9) ∧
      JdwpField.taggedObjId 76 0 ≠ .taggedObjId 76 1) := by
  exact ⟨⟨by decide, by decide, by decide⟩,
    ⟨by decide, by decide, by decide⟩⟩

/-- C1 witness: the round-trip theorem applied to the spec's tagged
object ID seed case (`tag = 'L'`, object ID `0xDEADBEEFCAFEF00D`,
object-ID width 8): decoding the 9 encoded bytes reproduces the value
and reports 9 bytes. -/
theorem fieldRoundTrip_witness :
    fromEncodedField ⟨8, 8, 8, 8⟩
      (freshLike (.taggedObjId 76 0xDEADBEEFCAFEF00D))
      [76, 0xDE, 0xAD, 0xBE, 0xEF, 0xCA, 0xFE, 0xF0, 0x0D] =
      .ok (.taggedObjId 76 0xDEADBEEFCAFEF00D, 9) :=
  fieldRoundTrip ⟨8, 8, 8, 8⟩ (.taggedObjId 76 0xDEADBEEFCAFEF00D)
    [76, 0xDE, 0xAD, 0xBE, 0xEF, 0xCA, 0xFE, 0xF0, 0x0D]
    (by decide) (by decide) (by decide)

/-- C2 (amended): every packet produced by the generic
`CommandPacketBase::SerializeImpl` begins with an 11-byte header whose
declared big-endian length equals the total encoded byte count, whose
flags byte is 0 and whose command-set and command bytes are the
schema's; a vector slot serializes as a 4-byte count followed by the
concatenated element bundles.  The three overriding serializers
(ClassType.SetValues, ObjectReference.SetValues,
ArrayReference.SetValues) instead return only the concatenated field
bytes — their output length is exactly the sum of the field widths, so
it contains neither the 11 header bytes nor a 4-byte vector count. -/
theorem commandSerializeSpec :
    (∀ (S : Sizes) (cs cmd : Nat) (slots : List Slot) (id : Nat)
        (pkt : List Nat), commandSerialize S cs cmd slots id = .ok pkt →
      11 ≤ pkt.length ∧ beVal (pkt.take 4) = pkt.length ∧
        (pkt.drop 8).take 3 = [0, cs % 256, cmd % 256]) ∧
    (∀ (S : Sizes) (bundles : List (List Slot)) (eb : List Nat),
        serializeBundles S bundles = .ok eb →
      serializeSlot S (.vec bundles) =
        .ok (beBytes 4 bundles.length ++ eb)) ∧
    (∀ (S : Sizes) (c : Nat) (vals : List (Nat × JdwpVal)) (bs : List Nat),
        classTypeSetValuesSerialize S c vals = .ok bs →
      bs.length = S.objId + pairsLen S vals) ∧
    (∀ (S : Sizes) (o : Nat) (vals : List (Nat × JdwpVal)) (bs : List Nat),
        objectReferenceSetValuesSerialize S o vals = .ok bs →
      bs.length = S.objId + pairsLen S vals) ∧
    (∀ (S : Sizes) (a fi : Nat) (vals : List JdwpVal) (bs : List Nat),
        arrayReferenceSetValuesSerialize S a fi vals = .ok bs →
      bs.length = S.objId + (4 + untaggedListLen S vals)) := by
  refine ⟨?_, ?_, ?_, ?_, ?_⟩
  · intro S cs cmd slots id pkt h
    cases hb : serializeSlots S slots with
    | error e => simp [commandSerialize, hb] at h
    | ok body =>
      cases hh : produceHeader cs cmd body.length id with
      | error e => simp [commandSerialize, hb, hh] at h
      | ok hdr =>
        simp only [commandSerialize, hb, hh, Except.ok.injEq] at h
        obtain ⟨hbl, hhdr⟩ := produceHeader_ok_inv hh
        rw [← h, hhdr]
        exact header_append_facts cs cmd id body hbl rfl
  · intro S bundles eb h
    simp only [serializeSlot, h]
  · intro S c vals bs h
    simp only [classTypeSetValuesSerialize] at h
    cases hc : serializeVar S.objId c with
    | error e => rw [hc] at h; exact Except.noConfusion h
    | ok cb =>
      rw [hc] at h
      cases hp : serializePairsFV S vals with
      | error e => rw [hp] at h; exact Except.noConfusion h
      | ok pb =>
        rw [hp] at h
        simp only [Except.ok.injEq] at h
        rw [← h, List.length_append, serializeVar_length hc,
          serializePairsFV_length hp]
  · intro S o vals bs h
    simp only [objectReferenceSetValuesSerialize] at h
    cases hc : serializeVar S.objId o with
    | error e => rw [hc] at h; exact Except.noConfusion h
    | ok ob =>
      rw [hc] at h
      cases hp : serializePairsFV S vals with
      | error e => rw [hp] at h; exact Except.noConfusion h
      | ok pb =>
        rw [hp] at h
        simp only [Except.ok.injEq] at h
        rw [← h, List.length_append, serializeVar_length hc,
          serializePairsFV_length hp]
  · intro S a fi vals bs h
    simp only [arrayReferenceSetValuesSerialize] at h
    cases hc : serializeVar S.objId a with
    | error e => rw [hc] at h; exact Except.noConfusion h
    | ok ab =>
      rw [hc] at h
      cases hp : serializeUntaggedList S vals with
      | error e => rw [hp] at h; exact Except.noConfusion h
      | ok vb =>
        rw [hp] at h
        simp only [Except.ok.injEq] at h
        rw [← h, List.length_append, List.length_append,
          serializeVar_length hc, serializeUntaggedList_length hp,
          beBytes_length]

/-- C2 (counterexample to the claim as stated): the overriding
`ClassType.SetValues` serializer, with object-ID width 8, class ID 0 and
no field pairs, returns eight bytes — too short to contain an 11-byte
header, and its first four bytes (value 0) do not declare the actual
length 8.  The generic header property fails for this override. -/
theorem classTypeSetValuesNoHeader :
    classTypeSetValuesSerialize ⟨8, 8, 8, 8⟩ 0 [] =
      .ok [0, 0, 0, 0, 0, 0, 0, 0] ∧
    ¬ 11 ≤ ([0, 0, 0, 0, 0, 0, 0, 0] : List Nat).length ∧
    beVal (([0, 0, 0, 0, 0, 0, 0, 0] : List Nat).take 4) ≠
      ([0, 0, 0, 0, 0, 0, 0, 0] : List Nat).length := by
  exact ⟨by decide, by decide, by decide⟩

/-- C2 witness: the generic-serializer header property instantiated at
the spec's `VirtualMachine.Version` seed packet (no fields, ID 0). -/
theorem commandSerializeSpec_witness :
    11 ≤ ([0, 0, 0, 11, 0, 0, 0, 0, 0, 1, 1] : List Nat).length ∧
    beVal (([0, 0, 0, 11, 0, 0, 0, 0, 0, 1, 1] : List Nat).take 4) =
      ([0, 0, 0, 11, 0, 0, 0, 0, 0, 1, 1] : List Nat).length ∧
    (([0, 0, 0, 11, 0, 0, 0, 0, 0, 1, 1] : List Nat).drop 8).take 3 =
      [0, 1 % 256, 1 % 256] :=
  commandSerializeSpec.1 ⟨8, 8, 8, 8⟩ 1 1 [] 0
    [0, 0, 0, 11, 0, 0, 0, 0, 0, 1, 1] (by decide)

/-- C3: `ProduceHeader` returns exactly the 11 bytes — big-endian
`body_len + 11`, big-endian id, flags 0, command-set byte, command
byte — whenever `body_len ≤ 2^32 - 1 - 11`, and fails with the
body-too-long error exactly when `body_len` exceeds that bound.  (The
command-set and command bytes are written modulo 256, the identity on
byte-valued arguments; `beBytes 4` is the big-endian representation of
any value below `2^32`, witnessed by the `beVal` conjuncts.) -/
theorem produceHeaderSpec (cs cmd bl id : Nat) :
    (bl ≤ 4294967284 →
      produceHeader cs cmd bl id = .ok (beBytes 4 (bl + 11) ++
        (beBytes 4 id ++ [0, cs % 256, cmd % 256])) ∧
      (beBytes 4 (bl + 11) ++
        (beBytes 4 id ++ [0, cs % 256, cmd % 256])).length = 11 ∧
      beVal (beBytes 4 (bl + 11)) = bl + 11 ∧
      (id < 4294967296 → beVal (beBytes 4 id) = id)) ∧
    (4294967284 < bl → produceHeader cs cmd bl id = .error .bodyTooLong) := by
  constructor
  · intro h
    refine ⟨produceHeader_ok h, ?_, ?_, ?_⟩
    · simp [beBytes_length]
    · exact beVal_beBytes_of_lt (by
        have : (256 : Nat) ^ 4 = 4294967296 := by norm_num
        omega)
    · intro hid
      exact beVal_beBytes_of_lt (by
        have : (256 : Nat) ^ 4 = 4294967296 := by norm_num
        omega)
  · intro h
    rw [produceHeader, if_pos (by omega)]

/-- C3 witness: the header for command-set 15, command 1, empty body,
ID 0, and the body-too-long failure one past the bound. -/
theorem produceHeaderSpec_witness :
    produceHeader 15 1 0 0 = .ok (beBytes 4 (0 + 11) ++
      (beBytes 4 0 ++ [0, 15 % 256, 1 % 256])) ∧
    produceHeader 15 1 4294967285 0 = .error .bodyTooLong :=
  ⟨((produceHeaderSpec 15 1 0 0).1 (by omega)).1,
    (produceHeaderSpec 15 1 4294967285 0).2 (by omega)⟩

/-- C4 (amended): packet IDs come from the mutex-guarded counter that
starts at 0, but the counter is a 32-bit integer: the `n`-th packet
construction (0-based) is assigned ID `n mod 2^32`, so the IDs are
0, 1, 2, … strictly increasing — and therefore pairwise distinct — only
among the first `2^32` constructions, after which the counter wraps. -/
theorem packetIdSpec :
    nthId 0 = 0 ∧
    (∀ n, nthId n = n % 4294967296) ∧
    (∀ m n, m < n → n < 4294967296 → nthId m < nthId n) := by
  refine ⟨rfl, nthId_eq, ?_⟩
  intro m n hmn hn
  rw [nthId_eq, nthId_eq, Nat.mod_eq_of_lt (by omega),
    Nat.mod_eq_of_lt (by omega)]
  exact hmn

/-- C4 (counterexample to the claim as stated): the `2^32`-th packet
construction is assigned ID 0 again — the same ID as the very first
construction — so across a long enough sequence of constructions the
IDs are neither strictly increasing nor never reused. -/
theorem packetIdWraps :
    nthId 4294967296 = nthId 0 ∧ nthId 0 = 0 ∧ (4294967296 : Nat) ≠ 0 := by
  refine ⟨?_, rfl, by omega⟩
  rw [nthId_eq, nthId_eq]

/-- C4 witness: strict monotonicity applied to the first two
constructions. -/
theorem packetIdSpec_witness : nthId 0 < nthId 1 :=
  packetIdSpec.2.2 0 1 (by omega) (by omega)

/-- C5: evaluation of the variable-width ID serializer at the claim's
failing inputs.  With sizes-table width 4 and value `2^32` (which does
not fit in 4 bytes) serialization *succeeds*, silently truncating to
four zero bytes — there is no IdTooWide failure in the code.  Before the
sizes table is populated the stub `GetObjIdSizeImpl` returns width 0 and
serialization *succeeds* with the empty byte string — there is no
SizesUnknown failure.  The only failure the serializer can raise is the
"ID size too large" error for widths above 8. -/
theorem varIdSerializeUnchecked :
    serializeVar 4 4294967296 = .ok [0, 0, 0, 0] ∧
    serializeVar getObjIdSizeStub 4294967296 = .ok [] ∧
    serializeVar 9 0 = .error .idSizeTooLarge := by
  exact ⟨by decide, by decide, by decide⟩

/-- C6: evaluation of the string decoder at the claim's failing input —
four bytes declaring length 5 with no content bytes.  The code performs
no bounds check: it reports success with `4 + 5 = 9` bytes consumed even
though only 4 bytes of input exist (the C++ reads past the end of the
buffer; the model reads the in-bounds prefix).  There is no Truncated
failure.  When the declared length does fit, the decoder does return the
content and report `4 + length` bytes, as the second conjunct shows. -/
theorem stringDecodeOverread :
    fromEncodedField ⟨8, 8, 8, 8⟩ (.str []) [0, 0, 0, 5] =
      .ok (.str [], 9) ∧
    ([0, 0, 0, 5] : List Nat).length < 9 ∧
    fromEncodedField ⟨8, 8, 8, 8⟩ (.str []) [0, 0, 0, 2, 65, 66] =
      .ok (.str [65, 66], 6) := by
  exact ⟨by decide, by decide, by decide⟩

/-- C7 (amended): a received packet is parsed as a composite event
exactly when the header's reply bit (bit 7 of the flags byte at offset
8) is clear and the command-set byte (offset 9) is 64; a packet failing
that check is rejected as a non-event.  The command byte at offset 10 is
*not* checked: the parser's outcome is invariant under any change to
byte 10. -/
theorem fromCompositeHeaderCheck :
    (∀ h : List Nat, headerIsEvent h = true ↔
      (Nat.land (h.getD 8 0) 128 = 0 ∧ h.getD 9 0 = 64)) ∧
    (∀ (S : Sizes) (enc : List Nat), headerIsEvent enc = false →
      fromComposite S enc = .error .nonEventPacket) ∧
    (∀ (S : Sizes) (enc : List Nat) (v : Nat),
      fromComposite S (enc.set 10 v) = fromComposite S enc) := by
  refine ⟨?_, ?_, ?_⟩
  · intro h
    simp [headerIsEvent]
  · intro S enc h
    simp [fromComposite, h]
  · intro S enc v
    have h8 : (enc.set 10 v).getD 8 0 = enc.getD 8 0 :=
      getD_set_ne v enc (by omega)
    have h9 : (enc.set 10 v).getD 9 0 = enc.getD 9 0 :=
      getD_set_ne v enc (by omega)
    have hhdr : headerIsEvent (enc.set 10 v) = headerIsEvent enc := by
      simp [headerIsEvent, h8, h9]
    have hd12 : (enc.set 10 v).drop 12 = enc.drop 12 :=
      drop_set_of_lt v enc (by omega)
    have hd16 : (enc.set 10 v).drop 16 = enc.drop 16 :=
      drop_set_of_lt v enc (by omega)
    simp only [fromComposite, hhdr, hd12, hd16]

/-- C7 (counterexample to the claim as stated): a packet with the reply
bit clear, command-set byte 64 and command byte 7 (≠ 100) is parsed
successfully as a composite event (here with zero records) instead of
being rejected. -/
theorem fromCompositeIgnoresCommandByte :
    fromComposite ⟨8, 8, 8, 8⟩
      [0, 0, 0, 16, 0, 0, 0, 0, 0, 64, 7, 0, 0, 0, 0, 0] = .ok [] ∧
    ([0, 0, 0, 16, 0, 0, 0, 0, 0, 64, 7, 0, 0, 0, 0, 0] :
      List Nat).getD 10 0 ≠ 100 := by
  exact ⟨by decide, by decide⟩

/-- C7 witness: rejection of a reply-classified packet (command-set 2),
and command-byte invariance at a concrete composite packet. -/
theorem fromCompositeHeaderCheck_witness :
    fromComposite ⟨8, 8, 8, 8⟩ [0, 0, 0, 11, 0, 0, 0, 0, 0, 2, 1] =
      .error .nonEventPacket ∧
    fromComposite ⟨8, 8, 8, 8⟩
      (([0, 0, 0, 16, 0, 0, 0, 0, 0, 64, 100, 0, 0, 0, 0, 0] :
        List Nat).set 10 5) =
      fromComposite ⟨8, 8, 8, 8⟩
        [0, 0, 0, 16, 0, 0, 0, 0, 0, 64, 100, 0, 0, 0, 0, 0] :=
  ⟨fromCompositeHeaderCheck.2.1 _ _ (by decide),
    fromCompositeHeaderCheck.2.2 _ _ 5⟩

/-- C8 (amended): the composite-event parser dispatches every event-kind
byte of the spec's table *except* FramePop (3) to the decoder of the
corresponding kind; the byte 3 and every byte outside the 18 handled
values make the parser fail with the illegal-event-kind error. -/
theorem eventKindDispatchSpec :
    (∀ k : EventKind, eventForKind (kindCode k) = some k) ∧
    eventForKind 3 = none ∧
    (∀ b : Nat, b ∉ ([1, 2, 4, 6, 7, 8, 9, 20, 21, 40, 41, 42, 43, 44,
        45, 46, 90, 99] : List Nat) → eventForKind b = none) ∧
    (∀ (S : Sizes) (n : Nat) (data : List Nat),
      eventForKind (data.getD 0 0) = none →
      parseEvents S (n + 1) data = .error .illegalEventKind) ∧
    (∀ (S : Sizes) (k : EventKind) (data : List Nat),
      data.getD 0 0 = kindCode k →
      parseEvents S 1 data =
        (eventFromEncoded S k data).map (fun p => [p.1])) := by
  refine ⟨eventForKind_kindCode, rfl, ?_, ?_, ?_⟩
  · intro b hb
    simp only [List.mem_cons, List.not_mem_nil, or_false, not_or] at hb
    obtain ⟨g1, g2, g4, g6, g7, g8, g9, g20, g21, g40, g41, g42, g43,
      g44, g45, g46, g90, g99⟩ := hb
    simp [eventForKind, g1, g2, g4, g6, g7, g8, g9, g20, g21, g40, g41,
      g42, g43, g44, g45, g46, g90, g99]
  · intro S n data h
    simp only [parseEvents, h]
  · intro S k data h
    simp only [parseEvents, h, eventForKind_kindCode]
    cases he : eventFromEncoded S k data with
    | error e => simp [Except.map]
    | ok p => simp [Except.map, parseEvents]

/-- C8 (counterexample to the claim as stated): a composite event packet
carrying a single record of kind 3 (FramePop, listed in the spec's
table) fails with the illegal-event-kind error instead of being decoded
into a FramePop record — the dispatch switch has no case for it and no
FramePop event class exists. -/
theorem framePopRejected :
    fromComposite ⟨8, 8, 8, 8⟩
      [0, 0, 0, 17, 0, 0, 0, 0, 0, 64, 100, 0, 0, 0, 0, 1, 3] =
      .error .illegalEventKind := by decide

/-- C8 witness: the parser fails on the unlisted kind byte 5
(UserDefined) and decodes a VmDeath (99) record via the VmDeath
decoder. -/
theorem eventKindDispatchSpec_witness :
    parseEvents ⟨8, 8, 8, 8⟩ 1 [5] = .error .illegalEventKind ∧
    parseEvents ⟨8, 8, 8, 8⟩ 1 [99, 0, 0, 0, 7] =
      (eventFromEncoded ⟨8, 8, 8, 8⟩ .vmDeath [99, 0, 0, 0, 7]).map
        (fun p => [p.1]) :=
  ⟨eventKindDispatchSpec.2.2.2.1 _ 0 _ (by decide),
    eventKindDispatchSpec.2.2.2.2 _ .vmDeath _ (by decide)⟩

/-- C9: the EventRequest.Set serializer.  Every serialized modifier
starts with the modKind byte, the modifier's variant index plus 1; every
produced packet is framed by a header declaring the actual total length
under command-set 15, command 1; and at the spec's seed inputs
(event kind 1, suspend policy 2, modifiers Count(0) and
ExceptionOnly(0xDEADBEEFCAFEF00D, true, false), object-ID width 8) the
packet is exactly the header for body length 22 followed by the body
`01 02 00 00 00 02 01 00 00 00 00 08 DE AD BE EF CA FE F0 0D 01 00`. -/
theorem setCommandSpec :
    (∀ (S : Sizes) (m : Modifier) (bs : List Nat),
      serializeModifier S m = .ok bs →
      bs.getD 0 0 = variantIndex m + 1) ∧
    (∀ (S : Sizes) (ek sp : Nat) (mods : List Modifier) (id : Nat)
        (pkt : List Nat), setCommandSerialize S ek sp mods id = .ok pkt →
      beVal (pkt.take 4) = pkt.length ∧
        (pkt.drop 8).take 3 = [0, 15, 1]) ∧
    setCommandSerialize ⟨8, 8, 8, 8⟩ 1 2
      [.count 0, .exceptionOnly 0xDEADBEEFCAFEF00D 1 0] 0 =
      .ok ([0, 0, 0, 33, 0, 0, 0, 0, 0, 15, 1] ++
        [1, 2, 0, 0, 0, 2, 1, 0, 0, 0, 0,
         8, 0xDE, 0xAD, 0xBE, 0xEF, 0xCA, 0xFE, 0xF0, 0x0D, 1, 0]) := by
  refine ⟨?_, ?_, by decide⟩
  · intro S m bs h
    cases hf : serializeModifierFields S m with
    | error e =>
      simp only [serializeModifier, hf] at h
      exact Except.noConfusion h
    | ok fb =>
      simp only [serializeModifier, hf, Except.ok.injEq] at h
      rw [← h]
      have hidx : variantIndex m ≤ 11 := by cases m <;> simp [variantIndex]
      simp [Nat.mod_eq_of_lt (show variantIndex m + 1 < 256 by omega)]
  · intro S ek sp mods id pkt h
    cases hm : serializeModifiers S mods with
    | error e => simp [setCommandSerialize, hm] at h
    | ok mb =>
      cases hh : produceHeader 15 1 (beBytes 1 ek ++ (beBytes 1 sp ++
          (beBytes 4 mods.length ++ mb))).length id with
      | error e =>
        simp only [setCommandSerialize, hm, hh] at h
        exact Except.noConfusion h
      | ok hdr =>
        simp only [setCommandSerialize, hm, hh, Except.ok.injEq] at h
        obtain ⟨hbl, hhdr⟩ := produceHeader_ok_inv hh
        rw [← h, hhdr]
        have body_facts := header_append_facts 15 1 id
          (beBytes 1 ek ++ (beBytes 1 sp ++ (beBytes 4 mods.length ++ mb)))
          hbl rfl
        exact ⟨body_facts.2.1, body_facts.2.2⟩

/-- C9 witness: the framing conjunct applied to the seed packet. -/
theorem setCommandSpec_witness :
    beVal ((([0, 0, 0, 33, 0, 0, 0, 0, 0, 15, 1] ++
      [1, 2, 0, 0, 0, 2, 1, 0, 0, 0, 0,
       8, 0xDE, 0xAD, 0xBE, 0xEF, 0xCA, 0xFE, 0xF0, 0x0D, 1, 0]) :
      List Nat).take 4) =
      (([0, 0, 0, 33, 0, 0, 0, 0, 0, 15, 1] ++
        [1, 2, 0, 0, 0, 2, 1, 0, 0, 0, 0,
         8, 0xDE, 0xAD, 0xBE, 0xEF, 0xCA, 0xFE, 0xF0, 0x0D, 1, 0]) :
        List Nat).length ∧
    ((([0, 0, 0, 33, 0, 0, 0, 0, 0, 15, 1] ++
      [1, 2, 0, 0, 0, 2, 1, 0, 0, 0, 0,
       8, 0xDE, 0xAD, 0xBE, 0xEF, 0xCA, 0xFE, 0xF0, 0x0D, 1, 0]) :
      List Nat).drop 8).take 3 = [0, 15, 1] :=
  setCommandSpec.2.1 ⟨8, 8, 8, 8⟩ 1 2
    [.count 0, .exceptionOnly 0xDEADBEEFCAFEF00D 1 0] 0 _ (by decide)

/-- C10: `IJdwpEvent::FromEncoded` fails with the wrong-event-kind error
whenever the leading byte of the input differs from the kind of the
event object it is invoked on; when the kinds match, it decodes the
kind's field tuple from the remaining bytes and reports one byte (the
kind byte) plus whatever that field decoder consumed. -/
theorem eventFromEncodedSpec :
    (∀ (S : Sizes) (k : EventKind) (data : List Nat),
      data.getD 0 0 ≠ kindCode k →
      eventFromEncoded S k data = .error .wrongEventKind) ∧
    (∀ (S : Sizes) (k : EventKind) (data : List Nat),
      data.getD 0 0 = kindCode k →
      eventFromEncoded S k data =
        (decodeFields S (eventTemplate k) (data.drop 1)).map
          (fun p => ((k, p.1), 1 + p.2))) := by
  constructor
  · intro S k data h
    rw [eventFromEncoded.eq_def, if_neg h]
  · intro S k data h
    rw [eventFromEncoded.eq_def, if_pos h]
    cases hd : decodeFields S (eventTemplate k) (data.drop 1) with
    | error e => simp [Except.map]
    | ok p => simp [Except.map]

/-- C10 witness: a VmDeath object rejects a record whose kind byte is
98, and decodes a matching record (kind byte 99, one 4-byte request ID),
reporting 1 + 4 bytes. -/
theorem eventFromEncodedSpec_witness :
    eventFromEncoded ⟨8, 8, 8, 8⟩ .vmDeath [98, 0, 0, 0, 7] =
      .error .wrongEventKind ∧
    eventFromEncoded ⟨8, 8, 8, 8⟩ .vmDeath [99, 0, 0, 0, 7] =
      (decodeFields ⟨8, 8, 8, 8⟩ (eventTemplate .vmDeath)
        ([99, 0, 0, 0, 7].drop 1)).map
          (fun p => ((EventKind.vmDeath, p.1), 1 + p.2)) :=
  ⟨eventFromEncodedSpec.1 _ _ _ (by decide),
    eventFromEncodedSpec.2 _ _ _ (by decide)⟩

end Roastery
